import Mathlib

/-!
Verification of the provider-abstraction and response-normalization layer of
the chat UI (file `src/services/apiService.ts`).

The TypeScript code is shallowly embedded: strings are `List Char`, the
result of `JSON.parse` is the inductive `Json` type below, fallible
operations return `Option` / `Except`, and the streaming generator
`streamChatResponse` becomes a pure function from the list of byte chunks
read from the underlying stream to the list of yielded fragments.
Platform builtins used by the code (`JSON.parse`, `JSON.stringify`,
`String.prototype.trim/startsWith/includes/split/slice`, `TextDecoder`
with the streaming option) are modelled faithfully on the fragment of
their behavior the code exercises.
-/

/-- Whitespace recognised by the JavaScript `String.prototype.trim`
(restricted to the ASCII whitespace characters; the exotic Unicode space
separators never occur in the streams this layer handles). -/
def jsWhitespace (c : Char) : Bool :=
  c == ' ' || c == '\t' || c == '\n' || c == '\r' ||
  c == Char.ofNat 11 || c == Char.ofNat 12

/-- Model of `line.trim()`: drop leading and trailing whitespace. -/
def jsTrim (s : List Char) : List Char :=
  ((s.dropWhile jsWhitespace).reverse.dropWhile jsWhitespace).reverse

/-- Model of `s.startsWith(pat)`. -/
def listStartsWith : List Char → List Char → Bool
  | [], _ => true
  | _ :: _, [] => false
  | p :: ps, c :: cs => p == c && listStartsWith ps cs

/-- Model of `s.includes(pat)`: `pat` occurs as a contiguous substring. -/
def listContains (pat : List Char) : List Char → Bool
  | [] => listStartsWith pat []
  | c :: cs => listStartsWith pat (c :: cs) || listContains pat cs

/-- Model of `chunk.split(newline)`: split at every newline, keeping empty
pieces, always returning at least one piece. -/
def splitOnNl : List Char → List (List Char)
  | [] => [[]]
  | c :: cs =>
    match splitOnNl cs with
    | [] => [[]]
    | l :: ls => if c == '\n' then [] :: l :: ls else (c :: l) :: ls

/-- The opening brace character (written via its code point). -/
def lbraceChar : Char := Char.ofNat 123

/-- The closing brace character (written via its code point). -/
def rbraceChar : Char := Char.ofNat 125

mutual
/-- A JavaScript value as produced by `JSON.parse`, together with `undef`
for the JavaScript `undefined` value (which `JSON.parse` itself never
produces, but which property access on a parsed value can yield). -/
inductive Json where
  | null : Json
  | undef : Json
  | bool (b : Bool) : Json
  | num (lexeme : List Char) : Json
  | str (s : List Char) : Json
  | arr (items : JsonItems) : Json
  | obj (fields : JsonFields) : Json
  deriving DecidableEq

/-- The element list of a JSON array. -/
inductive JsonItems where
  | nil : JsonItems
  | cons (hd : Json) (tl : JsonItems) : JsonItems
  deriving DecidableEq

/-- The field list of a JSON object, in source order. -/
inductive JsonFields where
  | nil : JsonFields
  | cons (key : List Char) (val : Json) (tl : JsonFields) : JsonFields
  deriving DecidableEq
end

/-- Object property lookup. When `JSON.parse` meets a duplicated key the
later occurrence wins, so lookup prefers the rightmost matching field. -/
def jsonFieldsLookup (k : List Char) : JsonFields → Option Json
  | .nil => none
  | .cons key v tl =>
    match jsonFieldsLookup k tl with
    | some r => some r
    | none => if key == k then some v else none

/-- Array element access by position. -/
def jsonItemsGet : JsonItems → Nat → Option Json
  | .nil, _ => none
  | .cons hd _, 0 => some hd
  | .cons _ tl, n + 1 => jsonItemsGet tl n

/-- Model of JavaScript property access `v[k]` (and of optional chaining
`v?.k`, which on a present receiver behaves identically): a named field of
an object, `undefined` (here `none`) on every other receiver — none of the
property names this layer reads exists on strings, arrays, numbers,
booleans or `null`. -/
def Json.getField (j : Json) (k : List Char) : Option Json :=
  match j with
  | .obj fs => jsonFieldsLookup k fs
  | _ => none

/-- Model of JavaScript indexed access `v[i]`: an array element, a
one-character string for string receivers, a string-keyed field for object
receivers, `undefined` (here `none`) otherwise. -/
def Json.getIndex (j : Json) (i : Nat) : Option Json :=
  match j with
  | .arr xs => jsonItemsGet xs i
  | .str s => (s[i]?).map (fun c => Json.str [c])
  | .obj fs => jsonFieldsLookup (Nat.toDigits 10 i) fs
  | _ => none

/-- Whether a decimal number lexeme denotes zero: every mantissa digit
(before the exponent marker) is `0`. -/
def jsonNumLexemeIsZero (s : List Char) : Bool :=
  ((s.takeWhile (fun c => !(c == 'e') && !(c == 'E'))).filter
    (fun c => '0' ≤ c && c ≤ '9')).all (fun c => c == '0')

/-- JavaScript truthiness of a value: `undefined`, `null`, `false`, `0`
and the empty string are falsy, everything else (including empty arrays
and objects) is truthy. -/
def Json.truthy : Json → Bool
  | .null => false
  | .undef => false
  | .bool b => b
  | .num s => !jsonNumLexemeIsZero s
  | .str s => !s.isEmpty
  | .arr _ => true
  | .obj _ => true

/-- Truthiness of an optional property-access result, with an absent
property (`undefined`) falsy. -/
def optTruthy : Option Json → Bool
  | none => false
  | some v => v.truthy

/-- Whitespace accepted between JSON tokens by `JSON.parse`. -/
def jsonWs (c : Char) : Bool :=
  c == ' ' || c == '\t' || c == '\n' || c == '\r'

/-- Skip inter-token whitespace. -/
def skipJsonWs (cs : List Char) : List Char := cs.dropWhile jsonWs

/-- Decimal digit test for the JSON number grammar. -/
def isDigitChar (c : Char) : Bool := '0' ≤ c && c ≤ '9'

/-- Value of one hexadecimal digit, if the character is one. -/
def hexVal (c : Char) : Option Nat :=
  if '0' ≤ c ∧ c ≤ '9' then some (c.toNat - 48)
  else if 'a' ≤ c ∧ c ≤ 'f' then some (c.toNat - 87)
  else if 'A' ≤ c ∧ c ≤ 'F' then some (c.toNat - 55)
  else none

/-- Parse the body of a JSON string literal (the opening quote already
consumed), returning the decoded characters and the rest of the input.
Handles the escape sequences of the JSON grammar and rejects raw control
characters, as `JSON.parse` does. -/
def parseStringBody : Nat → List Char → Option (List Char × List Char)
  | 0, _ => none
  | fuel + 1, cs =>
    match cs with
    | [] => none
    | c :: rest =>
      if c == '"' then some ([], rest)
      else if c == '\\' then
        match rest with
        | [] => none
        | e :: rest2 =>
          if e == '"' then
            (parseStringBody fuel rest2).map (fun p => ('"' :: p.1, p.2))
          else if e == '\\' then
            (parseStringBody fuel rest2).map (fun p => ('\\' :: p.1, p.2))
          else if e == '/' then
            (parseStringBody fuel rest2).map (fun p => ('/' :: p.1, p.2))
          else if e == 'b' then
            (parseStringBody fuel rest2).map (fun p => (Char.ofNat 8 :: p.1, p.2))
          else if e == 'f' then
            (parseStringBody fuel rest2).map (fun p => (Char.ofNat 12 :: p.1, p.2))
          else if e == 'n' then
            (parseStringBody fuel rest2).map (fun p => ('\n' :: p.1, p.2))
          else if e == 'r' then
            (parseStringBody fuel rest2).map (fun p => ('\r' :: p.1, p.2))
          else if e == 't' then
            (parseStringBody fuel rest2).map (fun p => ('\t' :: p.1, p.2))
          else if e == 'u' then
            match rest2 with
            | h1 :: h2 :: h3 :: h4 :: rest3 =>
              match hexVal h1, hexVal h2, hexVal h3, hexVal h4 with
              | some a, some b, some c2, some d =>
                (parseStringBody fuel rest3).map
                  (fun p => (Char.ofNat (((a * 16 + b) * 16 + c2) * 16 + d) :: p.1, p.2))
              | _, _, _, _ => none
            | _ => none
          else none
      else if c.toNat < 32 then none
      else (parseStringBody fuel rest).map (fun p => (c :: p.1, p.2))

/-- Longest run of decimal digits at the head of the input. -/
def takeDigits (cs : List Char) : List Char × List Char :=
  (cs.takeWhile isDigitChar, cs.dropWhile isDigitChar)

/-- Parse the optional exponent part of a JSON number, given the lexeme
collected so far. -/
def jsonNumExponent (lexeme : List Char) (cs : List Char) :
    Option (List Char × List Char) :=
  match cs with
  | e :: rest =>
    if e == 'e' || e == 'E' then
      let (sign, rest2) :=
        match rest with
        | s :: r2 => if s == '+' || s == '-' then ([s], r2) else (([] : List Char), rest)
        | [] => (([] : List Char), rest)
      let (ds, rest3) := takeDigits rest2
      if ds.isEmpty then none else some (lexeme ++ e :: sign ++ ds, rest3)
    else some (lexeme, cs)
  | [] => some (lexeme, cs)

/-- Parse the optional fraction and exponent of a JSON number, given the
integer part already collected. -/
def jsonNumFraction (lexeme : List Char) (cs : List Char) :
    Option (List Char × List Char) :=
  match cs with
  | d :: rest =>
    if d == '.' then
      let (ds, rest2) := takeDigits rest
      if ds.isEmpty then none else jsonNumExponent (lexeme ++ '.' :: ds) rest2
    else jsonNumExponent lexeme cs
  | [] => jsonNumExponent lexeme cs

/-- Parse a JSON number lexeme (sign, integer part without leading zeros,
optional fraction, optional exponent), returning the lexeme and the rest
of the input. -/
def parseNumberLexeme (cs : List Char) : Option (List Char × List Char) :=
  let (sign, cs1) :=
    match cs with
    | s :: r => if s == '-' then (['-'], r) else (([] : List Char), cs)
    | [] => (([] : List Char), cs)
  match cs1 with
  | c :: r =>
    if c == '0' then jsonNumFraction (sign ++ ['0']) r
    else if isDigitChar c then
      let (ds, r2) := takeDigits (c :: r)
      jsonNumFraction (sign ++ ds) r2
    else none
  | [] => none

/-- Require the given literal characters at the head of the input. -/
def expectChars : List Char → List Char → Option (List Char)
  | [], cs => some cs
  | _ :: _, [] => none
  | l :: ls, c :: cs => if c == l then expectChars ls cs else none

mutual
/-- Recursive-descent model of `JSON.parse` on one value: skip leading
whitespace, then dispatch on the first character. Fuel bounds the nesting
depth; the top-level entry point supplies more fuel than any input can
consume, since every recursive call first consumes at least one input
character. -/
def parseValue : Nat → List Char → Option (Json × List Char)
  | 0, _ => none
  | fuel + 1, cs =>
    match skipJsonWs cs with
    | [] => none
    | c :: rest =>
      if c == 'n' then (expectChars "ull".data rest).map (fun r => (Json.null, r))
      else if c == 't' then (expectChars "rue".data rest).map (fun r => (Json.bool true, r))
      else if c == 'f' then (expectChars "alse".data rest).map (fun r => (Json.bool false, r))
      else if c == '"' then
        (parseStringBody (rest.length + 1) rest).map (fun p => (Json.str p.1, p.2))
      else if c == '[' then
        match skipJsonWs rest with
        | c2 :: r2 =>
          if c2 == ']' then some (Json.arr .nil, r2)
          else (parseItems fuel rest).map (fun p => (Json.arr p.1, p.2))
        | [] => none
      else if c == lbraceChar then
        match skipJsonWs rest with
        | c2 :: r2 =>
          if c2 == rbraceChar then some (Json.obj .nil, r2)
          else (parseFields fuel rest).map (fun p => (Json.obj p.1, p.2))
        | [] => none
      else if c == '-' || isDigitChar c then
        (parseNumberLexeme (c :: rest)).map (fun p => (Json.num p.1, p.2))
      else none

/-- Parse the non-empty comma-separated element list of a JSON array up to
and including the closing bracket. -/
def parseItems : Nat → List Char → Option (JsonItems × List Char)
  | 0, _ => none
  | fuel + 1, cs =>
    match parseValue fuel cs with
    | none => none
    | some (v, r) =>
      match skipJsonWs r with
      | c :: r2 =>
        if c == ',' then (parseItems fuel r2).map (fun p => (JsonItems.cons v p.1, p.2))
        else if c == ']' then some (JsonItems.cons v .nil, r2)
        else none
      | [] => none

/-- Parse the non-empty comma-separated field list of a JSON object up to
and including the closing brace. -/
def parseFields : Nat → List Char → Option (JsonFields × List Char)
  | 0, _ => none
  | fuel + 1, cs =>
    match skipJsonWs cs with
    | c :: r =>
      if c == '"' then
        match parseStringBody (r.length + 1) r with
        | none => none
        | some (key, r2) =>
          match skipJsonWs r2 with
          | c2 :: r3 =>
            if c2 == ':' then
              match parseValue fuel r3 with
              | none => none
              | some (v, r4) =>
                match skipJsonWs r4 with
                | c3 :: r5 =>
                  if c3 == ',' then
                    (parseFields fuel r5).map (fun p => (JsonFields.cons key v p.1, p.2))
                  else if c3 == rbraceChar then some (JsonFields.cons key v .nil, r5)
                  else none
                | [] => none
            else none
          | [] => none
      else none
    | [] => none
end

/-- Model of `JSON.parse(s)`: parse one value and require that nothing but
whitespace follows; `none` models the thrown `SyntaxError`. -/
def parseJson (s : List Char) : Option Json :=
  match parseValue (s.length + 1) s with
  | some (v, rest) => if (skipJsonWs rest).isEmpty then some v else none
  | none => none

/-- The condition of the Anthropic branch of the stream normalizer:
`data.type === 'content_block_delta' && data.delta?.type === 'text_delta'`. -/
def isAnthropicTextDelta (data : Json) : Bool :=
  data.getField "type".data == some (Json.str "content_block_delta".data) &&
  ((data.getField "delta".data).bind (fun d => d.getField "type".data)
    == some (Json.str "text_delta".data))

/-- The JavaScript expression `data.delta.text` in the Anthropic branch
(an absent property is the `undefined` value). -/
def anthropicDeltaText (data : Json) : Json :=
  (((data.getField "delta".data).bind (fun d => d.getField "text".data)).getD Json.undef)

/-- The optional-chain `data.choices[0]?.delta?.content`. -/
def choicesDeltaContent (data : Json) : Option Json :=
  (((data.getField "choices".data).bind (fun c => c.getIndex 0)).bind
    (fun c0 => c0.getField "delta".data)).bind (fun d => d.getField "content".data)

/-- The optional-chain `data.choices[0]?.message?.content`. -/
def choicesMessageContent (data : Json) : Option Json :=
  (((data.getField "choices".data).bind (fun c => c.getIndex 0)).bind
    (fun c0 => c0.getField "message".data)).bind (fun m => m.getField "content".data)

/-- The fragment-extraction cascade of `streamChatResponse` applied to one
parsed `data:` payload: the Anthropic content-block-delta branch, then the
OpenAI incremental-delta branch, then the OpenAI complete-message branch,
else nothing. `none` means the loop body yields nothing for this line;
`some v` means it yields the JavaScript value `v`. -/
def extractFragment (data : Json) : Option Json :=
  if isAnthropicTextDelta data then
    some (anthropicDeltaText data)
  else if optTruthy (data.getField "choices".data) && optTruthy (choicesDeltaContent data) then
    some ((choicesDeltaContent data).getD Json.undef)
  else if optTruthy (data.getField "choices".data) && optTruthy (choicesMessageContent data) then
    some ((choicesMessageContent data).getD Json.undef)
  else none

/-- The body of the per-line loop of `streamChatResponse`: skip lines
containing `event: ping`, lines starting with `event:`, lines without a
`data:` start; strip `data: ` (six characters, only when the space is
present); skip blank payloads and payloads that fail to parse; otherwise
run the extraction cascade. -/
def processStreamLine (line : List Char) : Option Json :=
  if listContains "event: ping".data line then none
  else if listStartsWith "event:".data line then none
  else if !listStartsWith "data:".data line then none
  else
    let trimmedLine := if listStartsWith "data: ".data line then line.drop 6 else line
    if (jsTrim trimmedLine).isEmpty then none
    else
      match parseJson trimmedLine with
      | some data => extractFragment data
      | none => none

/-- The sentinel line filtered out of every chunk. -/
def doneSentinel : List Char := "data: [DONE]".data

/-- The line-splitting step of `streamChatResponse` on one decoded chunk:
split at newlines and drop blank lines and the `[DONE]` sentinel line. -/
def chunkLines (chunk : List Char) : List (List Char) :=
  (splitOnNl chunk).filter
    (fun l => !(jsTrim l).isEmpty && !(jsTrim l == doneSentinel))

/-- All fragments yielded for one decoded chunk, in line order. -/
def processChunk (chunk : List Char) : List Json :=
  (chunkLines chunk).filterMap processStreamLine

/-- The per-line behavior of `streamChatResponse` including the chunk-level
line filter: a blank or sentinel line yields nothing, any other line is
processed by the loop body. -/
def lineYield (line : List Char) : Option Json :=
  if !(jsTrim line).isEmpty && !(jsTrim line == doneSentinel) then
    processStreamLine line
  else none

/-- Decoder step on a lead byte, from the empty state. Model of the WHATWG
UTF-8 decoder used by `TextDecoder`: returns the emitted code points and
the continuation state (number of continuation bytes still expected,
accumulated value). Invalid bytes emit the replacement character
`U+FFFD`. -/
def utf8StepLead (b : Nat) : List Nat × Nat × Nat :=
  if b < 128 then ([b], 0, 0)
  else if b < 192 then ([65533], 0, 0)
  else if b < 224 then ([], 1, b - 192)
  else if b < 240 then ([], 2, b - 224)
  else if b < 248 then ([], 3, b - 240)
  else ([65533], 0, 0)

/-- One byte of streaming UTF-8 decoding: continuation bytes extend the
pending code point, completing it when the expected count is reached; a
non-continuation byte in a pending state emits a replacement character and
restarts on that byte. -/
def utf8Step (st : Nat × Nat) (b : Nat) : List Nat × Nat × Nat :=
  match st with
  | (0, _) => utf8StepLead b
  | (n + 1, acc) =>
    if 128 ≤ b ∧ b < 192 then
      let acc2 := acc * 64 + (b - 128)
      if n = 0 then ([acc2], 0, 0) else ([], n, acc2)
    else
      let r := utf8StepLead b
      (65533 :: r.1, r.2)

/-- Streaming decode of one chunk of bytes from a given decoder state:
the model of one `decoder.decode(value, with the stream option)` call.
Returns the code points produced by this chunk and the carried-over
state. -/
def utf8DecodeChunk : Nat × Nat → List Nat → List Nat × Nat × Nat
  | st, [] => ([], st)
  | st, b :: bs =>
    let p := utf8Step st b
    let q := utf8DecodeChunk p.2 bs
    (p.1 ++ q.1, q.2)

/-- UTF-8 encoding of one Unicode code point. -/
def utf8EncodeChar (c : Nat) : List Nat :=
  if c < 128 then [c]
  else if c < 2048 then [192 + c / 64, 128 + c % 64]
  else if c < 65536 then [224 + c / 4096, 128 + c / 64 % 64, 128 + c % 64]
  else [240 + c / 262144, 128 + c / 4096 % 64, 128 + c / 64 % 64, 128 + c % 64]

/-- UTF-8 encoding of a code-point sequence. -/
def utf8Encode (cps : List Nat) : List Nat := cps.flatMap utf8EncodeChar

/-- A valid Unicode scalar value (in range and not a surrogate). -/
def validScalar (c : Nat) : Prop := c < 1114112 ∧ ¬(55296 ≤ c ∧ c < 57344)

instance (c : Nat) : Decidable (validScalar c) := by
  unfold validScalar; infer_instance

/-- The decoder loop of `streamChatResponse`: each byte chunk read from
the stream is decoded with the carried decoder state, producing one
decoded text chunk per read. -/
def decodeChunksLoop : Nat × Nat → List (List Nat) → List (List Char)
  | _, [] => []
  | st, chunk :: rest =>
    let p := utf8DecodeChunk st chunk
    p.1.map Char.ofNat :: decodeChunksLoop p.2 rest

/-- The whole stream normalizer `streamChatResponse`, as a pure function:
given the byte chunks successively read from the underlying stream, the
list of fragments yielded, in order. The generator terminates when the
read loop sees the stream closed, i.e. after the last chunk. -/
def streamChatResponse (byteChunks : List (List Nat)) : List Json :=
  (decodeChunksLoop (0, 0) byteChunks).flatMap processChunk

/-- UTF-8 bytes of an ASCII/Unicode Lean string, for feeding concrete
streams to `streamChatResponse`. -/
def strBytes (s : String) : List Nat := utf8Encode (s.data.map Char.toNat)

/-- Hexadecimal digit character for a value below 16. -/
def hexDigit (n : Nat) : Char :=
  if n < 10 then Char.ofNat (48 + n) else Char.ofNat (87 + n)

/-- Four-digit hexadecimal rendering used by string escapes. -/
def hexDigits4 (n : Nat) : List Char :=
  [hexDigit (n / 4096 % 16), hexDigit (n / 256 % 16), hexDigit (n / 16 % 16),
   hexDigit (n % 16)]

/-- Escaping of one character inside a stringified JSON string literal. -/
def escapeJsonChar (c : Char) : List Char :=
  if c == '"' then ['\\', '"']
  else if c == '\\' then ['\\', '\\']
  else if c == '\n' then ['\\', 'n']
  else if c == '\r' then ['\\', 'r']
  else if c == '\t' then ['\\', 't']
  else if c == Char.ofNat 8 then ['\\', 'b']
  else if c == Char.ofNat 12 then ['\\', 'f']
  else if c.toNat < 32 then '\\' :: 'u' :: hexDigits4 c.toNat
  else [c]

/-- A stringified JSON string literal with its quotes. -/
def escapeJsonString (s : List Char) : List Char :=
  '"' :: s.flatMap escapeJsonChar ++ ['"']

mutual
/-- Model of `JSON.stringify` on values produced by `JSON.parse` (the
`undef` constructor never occurs inside such values; it is rendered as
`null` for totality). -/
def stringifyJson : Json → List Char
  | .null => "null".data
  | .undef => "null".data
  | .bool b => if b then "true".data else "false".data
  | .num s => s
  | .str s => escapeJsonString s
  | .arr xs => '[' :: stringifyItems xs ++ [']']
  | .obj fs => lbraceChar :: stringifyFields fs ++ [rbraceChar]

/-- Comma-separated stringified array elements. -/
def stringifyItems : JsonItems → List Char
  | .nil => []
  | .cons v .nil => stringifyJson v
  | .cons v tl => stringifyJson v ++ ',' :: stringifyItems tl

/-- Comma-separated stringified object fields. -/
def stringifyFields : JsonFields → List Char
  | .nil => []
  | .cons k v .nil => escapeJsonString k ++ ':' :: stringifyJson v
  | .cons k v tl => escapeJsonString k ++ ':' :: stringifyJson v ++ ',' :: stringifyFields tl
end

/-- Modelled from the spec: the role tag of a chat message, one of
`system`, `user`, `assistant` (the repository's `types` module, imported
as an alias path by `apiService.ts`, is not among the source files; the
spec's data-model section fixes this enumeration, and every comparison in
`apiService.ts` is against one of these three literals). -/
inductive Role where
  | system : Role
  | user : Role
  | assistant : Role
  deriving DecidableEq

/-- The string literal for a role, as it appears on the wire. -/
def roleString : Role → List Char
  | .system => "system".data
  | .user => "user".data
  | .assistant => "assistant".data

/-- Modelled from the spec: a chat message — a role tag and textual
content. -/
structure Message where
  role : Role
  content : List Char
  deriving DecidableEq

/-- Modelled from the spec: the uniform chat request — ordered messages,
a model identifier, a temperature and a streaming flag. -/
structure ChatRequest where
  model : List Char
  messages : List Message
  temperature : Rat
  stream : Bool
  deriving DecidableEq

/-- The error classes this layer throws (each constructor corresponds to
one `throw new Error(...)` site of `apiService.ts`). -/
inductive ApiError where
  | missingCredential : ApiError
  | missingApiUrl : ApiError
  | missingChatflowId : ApiError
  | emptyRequest : ApiError
  | noUserMessage : ApiError
  deriving DecidableEq

/-- One message of the Anthropic request body (role already rewritten). -/
structure AnthropicMessage where
  role : List Char
  content : List Char
  deriving DecidableEq

/-- The JSON body `sendClaudeRequest` posts to the proxy endpoint. -/
structure ClaudeRequestBody where
  model : List Char
  max_tokens : Nat
  messages : List AnthropicMessage
  stream : Bool
  deriving DecidableEq

/-- The request-building part of `sendClaudeRequest`: filter out messages
whose content is empty or whitespace-only (`msg.content &&
msg.content.trim() !== ''`), rewrite role `system` to `user`, fail when no
message survives, and cap `max_tokens` at 16000 when streaming and 4096
otherwise. The returned body is what is transmitted; the error is thrown
before any network request. -/
def sendClaudeRequest (req : ChatRequest) : Except ApiError ClaudeRequestBody :=
  let anthropicMessages :=
    (req.messages.filter
      (fun m => !m.content.isEmpty && !(jsTrim m.content).isEmpty)).map
      (fun m =>
        { role := if m.role = Role.system then "user".data else roleString m.role
          content := m.content : AnthropicMessage })
  if anthropicMessages.isEmpty then .error .emptyRequest
  else
    .ok { model := req.model
          max_tokens := if req.stream then 16000 else 4096
          messages := anthropicMessages
          stream := req.stream }

/-- One entry of the history list sent to the flow engine; the code sets
the four fields `message`, `type`, `role`, `content`, with `type` and
`role` equal. -/
structure FlowiseHistoryEntry where
  message : List Char
  type : List Char
  role : List Char
  content : List Char
  deriving DecidableEq

/-- The role tag of a flow-engine history entry. -/
def flowiseTag (m : Message) : List Char :=
  if m.role = Role.assistant then "apiMessage".data else "userMessage".data

/-- The argument record `sendFlowiseRequest` passes to the SDK's
`createPrediction`. -/
structure FlowisePayload where
  chatflowId : List Char
  question : List Char
  history : Option (List FlowiseHistoryEntry)
  temperature : Rat
  streaming : Bool
  deriving DecidableEq

/-- The request-building part of `sendFlowiseRequest`: require a
configured API URL and chatflow id, take the content of the last
`user`-role message as the question (failing with the no-user-message
error otherwise), and build the history from every message that is not
`system`-role and not a `user`-role message whose content equals the
question. An empty history is sent as `undefined` (`none`). -/
def sendFlowiseRequest (apiUrl chatflowId : List Char) (req : ChatRequest) :
    Except ApiError FlowisePayload :=
  if apiUrl.isEmpty then .error .missingApiUrl
  else if chatflowId.isEmpty then .error .missingChatflowId
  else
    match (req.messages.filter (fun m => m.role = Role.user)).getLast? with
    | none => .error .noUserMessage
    | some lastUserMessage =>
      let history :=
        (req.messages.filter
          (fun m => !(m.role = Role.system : Bool) &&
            !((m.role = Role.user : Bool) && m.content == lastUserMessage.content))).map
          (fun m =>
            { message := m.content, type := flowiseTag m, role := flowiseTag m
              content := m.content : FlowiseHistoryEntry })
      .ok { chatflowId := chatflowId
            question := lastUserMessage.content
            history := if history.length > 0 then some history else none
            temperature := req.temperature
            streaming := req.stream }

/-- The value the flow-engine SDK resolves a non-streaming
`createPrediction` call to: either a plain string body or an object with
optional `text`, `result` and `json` fields (the three fields the code
inspects). -/
inductive FlowisePredictionResult where
  | strRes (s : List Char) : FlowisePredictionResult
  | objRes (text result : Option (List Char)) (json : Option Json) : FlowisePredictionResult
  deriving DecidableEq

/-- Truthiness of an optional string-valued field: absent and empty are
falsy. -/
def optStrTruthy : Option (List Char) → Bool
  | none => false
  | some s => !s.isEmpty

/-- Truthiness of the optional `json` field. -/
def optJsonTruthy : Option Json → Bool
  | none => false
  | some v => v.truthy

/-- The content-extraction chain of the non-streaming flow-engine branch:
`typeof response === 'string'`, else truthy `.text`, else truthy
`.result`, else truthy `.json` stringified, else the initial empty
string. -/
def flowiseExtractContent : FlowisePredictionResult → List Char
  | .strRes s => s
  | .objRes text result json =>
    if optStrTruthy text then text.getD []
    else if optStrTruthy result then result.getD []
    else if optJsonTruthy json then stringifyJson (json.getD Json.null)
    else []

/-- One message of a `ChatResponse` choice. -/
structure ChatMessage where
  role : List Char
  content : List Char
  deriving DecidableEq

/-- One choice of a `ChatResponse`. -/
structure Choice where
  index : Nat
  message : ChatMessage
  finish_reason : List Char
  deriving DecidableEq

/-- The common response shape this layer returns for non-streaming
calls. -/
structure ChatResponse where
  id : List Char
  choices : List Choice
  deriving DecidableEq

/-- The `ChatResponse` built by the non-streaming flow-engine branch
around the extracted content (`id` is the random `generateId()` value,
passed in here as a parameter). -/
def flowiseNonStreamingResponse (id : List Char) (res : FlowisePredictionResult) :
    ChatResponse :=
  { id := id
    choices := [{ index := 0
                  message := { role := "assistant".data
                               content := flowiseExtractContent res }
                  finish_reason := "stop".data }] }

/-- The provider enumeration. -/
inductive Provider where
  | groq : Provider
  | claude : Provider
  | openai : Provider
  | openrouter : Provider
  | flowise : Provider
  | neura : Provider
  | google : Provider
  deriving DecidableEq

/-- Model of `getApiKeyForProvider`: the per-provider environment variable
when set, else the empty string (the `|| ''` fallback; an environment
variable set to the empty string also yields the empty string). -/
def getApiKeyForProvider (env : Provider → Option (List Char)) (p : Provider) :
    List Char :=
  match env p with
  | some k => k
  | none => []

/-- The adapter a request is routed to. -/
inductive DispatchTarget where
  | flowiseAdapter : DispatchTarget
  | claudeAdapter : DispatchTarget
  | openAICompatibleAdapter : DispatchTarget
  deriving DecidableEq

/-- The credential check and routing of `sendChatRequest`: look up the
provider's credential, fail with the missing-credential error when it is
empty and the provider is not `flowise` (before any adapter runs, hence
before any network request), otherwise route to the provider's adapter. -/
def sendChatRequestRoute (env : Provider → Option (List Char)) (p : Provider) :
    Except ApiError DispatchTarget :=
  let apiKey := getApiKeyForProvider env p
  if apiKey.isEmpty && !(p = Provider.flowise : Bool) then .error .missingCredential
  else if p = Provider.flowise then .ok .flowiseAdapter
  else if p = Provider.claude then .ok .claudeAdapter
  else .ok .openAICompatibleAdapter

/-- The fragment-extraction precedence exactly as the specification words
it: (a) Anthropic content-delta shape yields the delta's text, (b) else an
incremental delta with content yields that content, (c) else a complete
message content yields that content, (d) else nothing. -/
def claimC1Extract (v : Json) : Option Json :=
  if isAnthropicTextDelta v then some (anthropicDeltaText v)
  else if optTruthy (choicesDeltaContent v) then some ((choicesDeltaContent v).getD Json.undef)
  else if optTruthy (choicesMessageContent v) then some ((choicesMessageContent v).getD Json.undef)
  else none

/-- The Anthropic request body exactly as the claim words it: the messages
list is the input with every empty-content message removed (and role
`system` rewritten to `user`); failure when no message survives. -/
def specClaudeBodyC3 (req : ChatRequest) : Except ApiError ClaudeRequestBody :=
  let msgs :=
    (req.messages.filter (fun m => !m.content.isEmpty)).map
      (fun m =>
        { role := if m.role = Role.system then "user".data else roleString m.role
          content := m.content : AnthropicMessage })
  if msgs.isEmpty then .error .emptyRequest
  else
    .ok { model := req.model
          max_tokens := if req.stream then 16000 else 4096
          messages := msgs
          stream := req.stream }

/-- The amended Anthropic filter: a message survives exactly when its
content does not trim to the empty string (empty or whitespace-only
content is removed). -/
def specClaudeBodyC3Amended (req : ChatRequest) : Except ApiError ClaudeRequestBody :=
  let msgs :=
    (req.messages.filter (fun m => !(jsTrim m.content).isEmpty)).map
      (fun m =>
        { role := if m.role = Role.system then "user".data else roleString m.role
          content := m.content : AnthropicMessage })
  if msgs.isEmpty then .error .emptyRequest
  else
    .ok { model := req.model
          max_tokens := if req.stream then 16000 else 4096
          messages := msgs
          stream := req.stream }

/-- The messages strictly before the last `user`-role message. -/
def beforeLastUser (msgs : List Message) : List Message :=
  ((msgs.reverse.dropWhile (fun m => !(m.role = Role.user : Bool))).drop 1).reverse

/-- The flow-engine history exactly as the claim words it: all earlier
(before the last `user`-role message) non-system messages, tagged
`apiMessage` for `assistant` and `userMessage` otherwise. -/
def specFlowiseHistoryC4 (msgs : List Message) : List FlowiseHistoryEntry :=
  ((beforeLastUser msgs).filter (fun m => !(m.role = Role.system : Bool))).map
    (fun m =>
      { message := m.content, type := flowiseTag m, role := flowiseTag m
        content := m.content : FlowiseHistoryEntry })

/-- The flow-engine history as amended: all non-system messages except
every `user`-role message whose content equals the question (the last
user message's content), tagged `apiMessage` for `assistant` and
`userMessage` otherwise. -/
def amendedFlowiseHistory (msgs : List Message) (question : List Char) :
    List FlowiseHistoryEntry :=
  (msgs.filter
    (fun m => decide (m.role ≠ Role.system ∧ ¬(m.role = Role.user ∧ m.content = question)))).map
    (fun m =>
      { message := m.content, type := flowiseTag m, role := flowiseTag m
        content := m.content : FlowiseHistoryEntry })

/-- The non-streaming flow-engine content extraction exactly as the claim
words it: the response itself when a plain string, else the `.text` field
when present, else the `.result` field when present, else the stringified
`.json` field when present, else the empty string. -/
def specExtractC7 : FlowisePredictionResult → List Char
  | .strRes s => s
  | .objRes text result json =>
    match text with
    | some t => t
    | none =>
      match result with
      | some r => r
      | none =>
        match json with
        | some j => stringifyJson j
        | none => []

/-- The extraction as amended: the response itself when a plain string,
else the `.text` field when non-empty, else the `.result` field when
non-empty, else the stringified `.json` field when that field is truthy,
else the empty string. -/
def specAmendedExtractC7 : FlowisePredictionResult → List Char
  | .strRes s => s
  | .objRes text result json =>
    match text with
    | some (c :: cs) => c :: cs
    | _ =>
      match result with
      | some (c :: cs) => c :: cs
      | _ =>
        match json with
        | some j => if j.truthy then stringifyJson j else []
        | none => []

/-- A pattern is a prefix exactly when the list is the pattern followed by
a tail. -/
theorem listStartsWith_iff : ∀ (p l : List Char), listStartsWith p l = true ↔ ∃ t, l = p ++ t
  | [], l => by simp [listStartsWith]
  | _ :: _, [] => by simp [listStartsWith]
  | a :: ps, c :: cs => by
    simp only [listStartsWith, Bool.and_eq_true, beq_iff_eq, List.cons_append]
    constructor
    · rintro ⟨rfl, h⟩
      obtain ⟨t, rfl⟩ := (listStartsWith_iff ps cs).1 h
      exact ⟨t, rfl⟩
    · rintro ⟨t, ht⟩
      rw [List.cons.injEq] at ht
      obtain ⟨rfl, rfl⟩ := ht
      exact ⟨rfl, (listStartsWith_iff ps (ps ++ t)).2 ⟨t, rfl⟩⟩

/-- A list that trims to nothing is all whitespace. -/
theorem jsTrim_eq_nil (t : List Char) (h : jsTrim t = []) :
    ∀ c ∈ t, jsWhitespace c = true := by
  unfold jsTrim at h
  rw [List.reverse_eq_nil_iff, List.dropWhile_eq_nil_iff] at h
  intro c hc
  have hsplit : c ∈ t.takeWhile jsWhitespace ++ t.dropWhile jsWhitespace := by
    rw [List.takeWhile_append_dropWhile]; exact hc
  rcases List.mem_append.1 hsplit with h1 | h2
  · exact List.mem_takeWhile_imp h1
  · exact h c (List.mem_reverse.2 h2)

/-- The first character surviving the whitespace skip is not JSON
whitespace. -/
theorem skipJsonWs_head (t : List Char) (c : Char) (rest : List Char)
    (h : skipJsonWs t = c :: rest) : jsonWs c = false := by
  induction t with
  | nil => simp [skipJsonWs] at h
  | cons a as ih =>
    by_cases ha : jsonWs a
    · exact ih (by simpa [skipJsonWs, List.dropWhile, ha] using h)
    · rw [skipJsonWs, List.dropWhile] at h
      simp only [ha] at h
      rw [List.cons.injEq] at h
      obtain ⟨rfl, rfl⟩ := h
      exact Bool.not_eq_true _ ▸ (by simpa using ha)

/-- Elements surviving the whitespace skip come from the input. -/
theorem skipJsonWs_mem (t : List Char) (c : Char) (h : c ∈ skipJsonWs t) : c ∈ t :=
  (List.dropWhile_sublist jsonWs).mem h

/-- `JSON.parse` fails on all-whitespace input. -/
theorem parseJson_ws_none (t : List Char) (hws : ∀ c ∈ t, jsWhitespace c = true) :
    parseJson t = none := by
  have hval : ∀ fuel, parseValue fuel t = none := by
    intro fuel
    match fuel with
    | 0 => rfl
    | n + 1 =>
      rw [parseValue]
      cases hsk : skipJsonWs t with
      | nil => rfl
      | cons c rest =>
        have hc1 : jsWhitespace c = true :=
          hws c (skipJsonWs_mem t c (hsk ▸ List.mem_cons_self c rest))
        have hc2 : jsonWs c = false := skipJsonWs_head t c rest hsk
        have hc : c = Char.ofNat 11 ∨ c = Char.ofNat 12 := by
          simp only [jsWhitespace, Bool.or_eq_true, beq_iff_eq] at hc1
          simp only [jsonWs, Bool.or_eq_false_iff, beq_eq_false_iff_ne, ne_eq] at hc2
          tauto
        rcases hc with rfl | rfl <;> simp [isDigitChar, lbraceChar]
  rw [parseJson, hval]

/-- A value admitting indexed access is truthy (arrays and objects always
are, and a string with an indexable position is non-empty). -/
theorem getIndex_truthy (j : Json) (i : Nat) (v : Json) (h : j.getIndex i = some v) :
    j.truthy = true := by
  cases j <;> simp [Json.getIndex] at h <;> simp [Json.truthy]
  case str s =>
    obtain ⟨c, hc, -⟩ := h
    intro hnil
    subst hnil
    simp at hc

/-- If the incremental-delta chain produced a value, the `choices`
property itself was truthy. -/
theorem choicesDeltaContent_truthy (j : Json)
    (h : optTruthy (choicesDeltaContent j) = true) :
    optTruthy (j.getField "choices".data) = true := by
  unfold choicesDeltaContent at h
  cases hch : j.getField "choices".data with
  | none => rw [hch] at h; simp [optTruthy] at h
  | some ch =>
    rw [hch] at h
    cases hix : ch.getIndex 0 with
    | none =>
      simp [hix, Option.bind] at h
      simp [optTruthy] at h
    | some c0 => simp [optTruthy, getIndex_truthy ch 0 c0 hix]

/-- If the complete-message chain produced a value, the `choices`
property itself was truthy. -/
theorem choicesMessageContent_truthy (j : Json)
    (h : optTruthy (choicesMessageContent j) = true) :
    optTruthy (j.getField "choices".data) = true := by
  unfold choicesMessageContent at h
  cases hch : j.getField "choices".data with
  | none => rw [hch] at h; simp [optTruthy] at h
  | some ch =>
    rw [hch] at h
    cases hix : ch.getIndex 0 with
    | none =>
      simp [hix, Option.bind] at h
      simp [optTruthy] at h
    | some c0 => simp [optTruthy, getIndex_truthy ch 0 c0 hix]

/-- The extraction cascade of the code coincides with the precedence as
the specification words it: the `data.choices` truthiness test of the two
OpenAI-style branches is redundant, since a successful chain through
`choices[0]` forces `choices` to be truthy. -/
theorem extractFragment_eq_claimC1Extract (j : Json) :
    extractFragment j = claimC1Extract j := by
  unfold extractFragment claimC1Extract
  by_cases ha : isAnthropicTextDelta j
  · simp [ha]
  · simp only [ha, if_false, Bool.false_eq_true]
    by_cases hd : optTruthy (choicesDeltaContent j)
    · simp [hd, choicesDeltaContent_truthy j hd]
    · simp only [hd, Bool.and_false, if_false, Bool.false_eq_true]
      by_cases hm : optTruthy (choicesMessageContent j)
      · simp [hm, choicesMessageContent_truthy j hm]
      · simp [hm]

/-- Loop-body behavior on a line with the full `data: ` (colon-space)
start and no embedded ping marker: the first six characters are stripped
and the rest is parsed, the extraction cascade running on success. -/
theorem processStreamLine_dataSpace (t : List Char)
    (hp : listContains "event: ping".data ("data: ".data ++ t) = false) :
    processStreamLine ("data: ".data ++ t) = (parseJson t).bind extractFragment := by
  have hd : "data: ".data = ['d', 'a', 't', 'a', ':', ' '] := rfl
  rw [hd] at hp
  have hev : listStartsWith "event:".data (['d', 'a', 't', 'a', ':', ' '] ++ t) = false := rfl
  have hda : listStartsWith "data:".data (['d', 'a', 't', 'a', ':', ' '] ++ t) = true := rfl
  have hds : listStartsWith "data: ".data (['d', 'a', 't', 'a', ':', ' '] ++ t) = true := rfl
  have hdrop : (['d', 'a', 't', 'a', ':', ' '] ++ t).drop 6 = t := rfl
  rw [hd, processStreamLine, hp, hev, hda, hds]
  simp only [Bool.false_eq_true, if_false, Bool.not_true, Bool.not_false, if_true, hdrop]
  cases hj : parseJson t with
  | none =>
    by_cases hb : (jsTrim t).isEmpty
    · simp [hb]
    · simp [hb, hj]
  | some v =>
    have hb : (jsTrim t).isEmpty = false := by
      cases hbe : (jsTrim t).isEmpty
      · rfl
      · exfalso
        have hnil : jsTrim t = [] := List.isEmpty_iff.1 hbe
        have hnone := parseJson_ws_none t (jsTrim_eq_nil t hnil)
        rw [hnone] at hj
        cases hj
    simp [hb, hj]

/-- Loop-body behavior on a line starting `data:` without the following
space: nothing is stripped, the whole line (including the `data:` marker)
is passed to the JSON parser. -/
theorem processStreamLine_dataNoSpace (t : List Char)
    (hns : listStartsWith "data: ".data ("data:".data ++ t) = false)
    (hp : listContains "event: ping".data ("data:".data ++ t) = false) :
    processStreamLine ("data:".data ++ t) =
      (parseJson ("data:".data ++ t)).bind extractFragment := by
  have hd : "data:".data = ['d', 'a', 't', 'a', ':'] := rfl
  rw [hd] at hp hns ⊢
  have hev : listStartsWith "event:".data (['d', 'a', 't', 'a', ':'] ++ t) = false := rfl
  have hda : listStartsWith "data:".data (['d', 'a', 't', 'a', ':'] ++ t) = true := rfl
  rw [processStreamLine, hp, hev, hda, hns]
  simp only [Bool.false_eq_true, if_false, Bool.not_true, Bool.not_false, if_true]
  have hb : ¬jsTrim (['d', 'a', 't', 'a', ':'] ++ t) = [] := by
    intro hnil
    have hw := jsTrim_eq_nil _ hnil 'd' (by simp)
    simp [jsWhitespace] at hw
  cases hj : parseJson (['d', 'a', 't', 'a', ':'] ++ t) with
  | none => simp [hb, hj]
  | some v =>
    simp [hb, hj]
    intro hnil
    exact absurd hnil hb

/-- A line not starting with `data:` yields no fragment. -/
theorem lineYield_nonData (line : List Char)
    (h : listStartsWith "data:".data line = false) : lineYield line = none := by
  have hpl : processStreamLine line = none := by
    by_cases hc : listContains "event: ping".data line <;>
      by_cases he : listStartsWith "event:".data line <;>
        simp [processStreamLine, h, hc, he]
  simp [lineYield, hpl]

/-- A line containing the ping marker anywhere yields no fragment. -/
theorem lineYield_ping (line : List Char)
    (h : listContains "event: ping".data line = true) : lineYield line = none := by
  have hpl : processStreamLine line = none := by simp [processStreamLine, h]
  simp [lineYield, hpl]

/-- A `data: `-started line whose payload fails to parse yields no
fragment. -/
theorem lineYield_dataSpace_parseFail (t : List Char) (hj : parseJson t = none) :
    lineYield ("data: ".data ++ t) = none := by
  have hpl : processStreamLine ("data: ".data ++ t) = none := by
    by_cases hp : listContains "event: ping".data ("data: ".data ++ t)
    · unfold processStreamLine
      rw [hp]
      simp
    · rw [processStreamLine_dataSpace t (by simpa using hp), hj]
      rfl
  unfold lineYield
  rw [hpl]
  simp [ite_self]

/-- Streaming decode distributes over chunk concatenation: decoding two
chunks successively with the carried state produces the concatenated
output and the final state of decoding the whole input at once. -/
theorem utf8DecodeChunk_append (st : Nat × Nat) (xs ys : List Nat) :
    utf8DecodeChunk st (xs ++ ys) =
      ((utf8DecodeChunk st xs).1 ++ (utf8DecodeChunk (utf8DecodeChunk st xs).2 ys).1,
       (utf8DecodeChunk (utf8DecodeChunk st xs).2 ys).2) := by
  induction xs generalizing st with
  | nil => simp [utf8DecodeChunk]
  | cons b bs ih =>
    simp only [List.cons_append, utf8DecodeChunk, List.append_eq, ih (utf8Step st b).2,
      List.append_assoc]

/-- Decoding the encoding of one in-range code point from the empty state
emits exactly that code point and returns to the empty state. -/
theorem utf8DecodeChunk_encodeChar (c : Nat) (hc : c < 1114112) :
    utf8DecodeChunk (0, 0) (utf8EncodeChar c) = ([c], 0, 0) := by
  unfold utf8EncodeChar
  by_cases h1 : c < 128
  · rw [if_pos h1]
    simp [utf8DecodeChunk, utf8Step, utf8StepLead, h1]
  · rw [if_neg h1]
    by_cases h2 : c < 2048
    · rw [if_pos h2]
      have a1 : ¬(192 + c / 64 < 128) := by omega
      have a2 : ¬(192 + c / 64 < 192) := by omega
      have a3 : 192 + c / 64 < 224 := by omega
      have b1 : 128 ≤ 128 + c % 64 ∧ 128 + c % 64 < 192 := by omega
      simp [utf8DecodeChunk, utf8Step, utf8StepLead, a1, a2, a3, b1]
      omega
    · rw [if_neg h2]
      by_cases h3 : c < 65536
      · rw [if_pos h3]
        have a1 : ¬(224 + c / 4096 < 128) := by omega
        have a2 : ¬(224 + c / 4096 < 192) := by omega
        have a3 : ¬(224 + c / 4096 < 224) := by omega
        have a4 : 224 + c / 4096 < 240 := by omega
        have b1 : 128 ≤ 128 + c / 64 % 64 ∧ 128 + c / 64 % 64 < 192 := by omega
        have b2 : 128 ≤ 128 + c % 64 ∧ 128 + c % 64 < 192 := by omega
        simp [utf8DecodeChunk, utf8Step, utf8StepLead, a1, a2, a3, a4, b1, b2]
        omega
      · rw [if_neg h3]
        have a1 : ¬(240 + c / 262144 < 128) := by omega
        have a2 : ¬(240 + c / 262144 < 192) := by omega
        have a3 : ¬(240 + c / 262144 < 224) := by omega
        have a4 : ¬(240 + c / 262144 < 240) := by omega
        have a5 : 240 + c / 262144 < 248 := by omega
        have b1 : 128 ≤ 128 + c / 4096 % 64 ∧ 128 + c / 4096 % 64 < 192 := by omega
        have b2 : 128 ≤ 128 + c / 64 % 64 ∧ 128 + c / 64 % 64 < 192 := by omega
        have b3 : 128 ≤ 128 + c % 64 ∧ 128 + c % 64 < 192 := by omega
        simp [utf8DecodeChunk, utf8Step, utf8StepLead, a1, a2, a3, a4, a5, b1, b2, b3]
        omega

/-- Round trip: decoding the UTF-8 encoding of a sequence of valid
Unicode scalars from the empty state yields exactly that sequence and
ends in the empty state. -/
theorem utf8_decode_encode (cps : List Nat) (h : ∀ c ∈ cps, validScalar c) :
    utf8DecodeChunk (0, 0) (utf8Encode cps) = (cps, 0, 0) := by
  induction cps with
  | nil => simp [utf8Encode, utf8DecodeChunk]
  | cons c cs ih =>
    have hc : c < 1114112 := (h c (List.mem_cons_self c cs)).1
    have hrest := ih (fun x hx => h x (List.mem_cons_of_mem c hx))
    rw [utf8Encode, List.flatMap_cons, utf8DecodeChunk_append,
      utf8DecodeChunk_encodeChar c hc]
    rw [utf8Encode] at hrest
    have hrest2 : utf8DecodeChunk (([c], 0, 0) : List Nat × Nat × Nat).2
        (cs.flatMap utf8EncodeChar) = (cs, 0, 0) := hrest
    rw [hrest2]
    rfl

/-- C3 (amended): the transmitted Anthropic request body equals the
reference definition whose filter removes every message with empty or
whitespace-only content (role `system` rewritten to `user`, `max_tokens`
16000 when streaming and 4096 otherwise, `EmptyRequest` when no message
survives). -/
theorem C3_claude_body (req : ChatRequest) :
    sendClaudeRequest req = specClaudeBodyC3Amended req := by
  have hf : ∀ m ∈ req.messages,
      (!m.content.isEmpty && !(jsTrim m.content).isEmpty) = !(jsTrim m.content).isEmpty := by
    intro m _
    cases hc : m.content with
    | nil => simp [hc, jsTrim]
    | cons c cs => simp [hc]
  unfold sendClaudeRequest specClaudeBodyC3Amended
  rw [List.filter_congr hf]

/-- C3 counterexample: on a request whose only message has whitespace-only
(but non-empty) content, the code fails with the empty-request error,
while the claim's reference body (which removes only empty-content
messages) transmits that message. -/
theorem C3_counterexample :
    sendClaudeRequest
        { model := "m".data
          messages := [{ role := Role.user, content := " ".data }]
          temperature := 1, stream := false } = .error .emptyRequest
    ∧ specClaudeBodyC3
        { model := "m".data
          messages := [{ role := Role.user, content := " ".data }]
          temperature := 1, stream := false } =
      .ok { model := "m".data, max_tokens := 4096
            messages := [{ role := "user".data, content := " ".data }]
            stream := false } :=
  ⟨rfl, rfl⟩

/-- C7 (amended): a non-streaming flow-engine call returns a ChatResponse
with a single choice whose assistant message content follows the priority
plain-string body, then non-empty `.text`, then non-empty `.result`, then
truthy `.json` stringified, else the empty string; in particular a
response with top-level `.text` equal to `ok` yields content `ok`. -/
theorem C7_nonstreaming_response :
    (∀ (id : List Char) (res : FlowisePredictionResult),
      flowiseNonStreamingResponse id res =
        { id := id
          choices := [{ index := 0
                        message := { role := "assistant".data
                                     content := specAmendedExtractC7 res }
                        finish_reason := "stop".data }] })
    ∧ flowiseNonStreamingResponse "i".data
        (.objRes (some "ok".data) none none) =
      { id := "i".data
        choices := [{ index := 0
                      message := { role := "assistant".data, content := "ok".data }
                      finish_reason := "stop".data }] } := by
  constructor
  · intro id res
    have he : flowiseExtractContent res = specAmendedExtractC7 res := by
      rcases res with s | ⟨t, r, j⟩
      · rfl
      · rcases t with _ | ⟨_ | ⟨tc, tcs⟩⟩ <;>
          rcases r with _ | ⟨_ | ⟨rc, rcs⟩⟩ <;>
            rcases j with _ | j <;>
              simp [flowiseExtractContent, specAmendedExtractC7, optStrTruthy, optJsonTruthy]
    unfold flowiseNonStreamingResponse
    rw [he]
  · rfl

/-- C7 counterexample: on a response whose `.text` field is present but
empty and whose `.result` field is `r`, the code extracts `r`, while
the claim's presence-based priority extracts the empty `.text`. -/
theorem C7_counterexample :
    flowiseExtractContent (.objRes (some []) (some "r".data) none) = "r".data
    ∧ specExtractC7 (.objRes (some []) (some "r".data) none) = []
    ∧ "r".data ≠ ([] : List Char) :=
  ⟨rfl, rfl, by decide⟩

/-- C9: for every provider other than `flowise`, an absent or empty
credential makes `sendChatRequest` fail with the missing-credential error
before any adapter (hence any network request) runs; the `flowise`
provider is routed to its adapter even with an absent credential. -/
theorem C9_missing_credential :
    (∀ (env : Provider → Option (List Char)) (p : Provider),
      p ≠ Provider.flowise → env p = none ∨ env p = some [] →
      sendChatRequestRoute env p = .error .missingCredential)
    ∧ (∀ env : Provider → Option (List Char), env Provider.flowise = none →
        sendChatRequestRoute env Provider.flowise = .ok .flowiseAdapter) := by
  constructor
  · intro env p hp henv
    have hk : getApiKeyForProvider env p = [] := by
      rcases henv with h | h <;> simp [getApiKeyForProvider, h]
    simp [sendChatRequestRoute, hk, hp]
  · intro env h
    have hk : getApiKeyForProvider env Provider.flowise = [] := by
      simp [getApiKeyForProvider, h]
    simp [sendChatRequestRoute, hk]

/-- C9 witness: with no credential configured, the `groq` provider fails
with the missing-credential error and the `flowise` provider is routed to
its adapter. -/
theorem C9_witness :
    sendChatRequestRoute (fun _ => none) Provider.groq = .error .missingCredential
    ∧ sendChatRequestRoute (fun _ => none) Provider.flowise = .ok .flowiseAdapter :=
  ⟨C9_missing_credential.1 (fun _ => none) Provider.groq (by decide) (Or.inl rfl),
   C9_missing_credential.2 (fun _ => none) rfl⟩

/-- C10 (amended): an OpenAI-style payload whose incremental delta content
is the empty string yields nothing from the delta branch — and nothing at
all when the complete-message content is also absent or falsy; every
fragment the two OpenAI-style branches yield as a string is non-empty;
an Anthropic content-block-delta payload with empty delta text is yielded
as an empty fragment. -/
theorem C10_empty_delta :
    (∀ j : Json, isAnthropicTextDelta j = false →
      choicesDeltaContent j = some (Json.str []) →
      optTruthy (choicesMessageContent j) = false →
      extractFragment j = none)
    ∧ (∀ (j : Json) (s : List Char), isAnthropicTextDelta j = false →
        extractFragment j = some (Json.str s) → s ≠ [])
    ∧ (∀ j : Json, isAnthropicTextDelta j = true →
        (j.getField "delta".data).bind (fun d => d.getField "text".data) =
          some (Json.str []) →
        extractFragment j = some (Json.str [])) := by
  refine ⟨?_, ?_, ?_⟩
  · intro j ha hd hm
    have h2 : optTruthy (choicesDeltaContent j) = false := by rw [hd]; rfl
    simp [extractFragment, ha, h2, hm]
  · intro j s ha he
    simp only [extractFragment, ha, Bool.false_eq_true, if_false] at he
    by_cases h1 : (optTruthy (j.getField "choices".data) &&
        optTruthy (choicesDeltaContent j)) = true
    · rw [if_pos h1] at he
      have hd : optTruthy (choicesDeltaContent j) = true :=
        ((Bool.and_eq_true _ _) ▸ h1).2
      cases hc : choicesDeltaContent j with
      | none => rw [hc] at hd; simp [optTruthy] at hd
      | some v =>
        rw [hc] at he hd
        simp only [Option.getD_some, Option.some.injEq] at he
        subst he
        simp only [optTruthy, Json.truthy] at hd
        intro hnil
        subst hnil
        simp at hd
    · rw [if_neg h1] at he
      by_cases h2 : (optTruthy (j.getField "choices".data) &&
          optTruthy (choicesMessageContent j)) = true
      · rw [if_pos h2] at he
        have hd : optTruthy (choicesMessageContent j) = true :=
          ((Bool.and_eq_true _ _) ▸ h2).2
        cases hc : choicesMessageContent j with
        | none => rw [hc] at hd; simp [optTruthy] at hd
        | some v =>
          rw [hc] at he hd
          simp only [Option.getD_some, Option.some.injEq] at he
          subst he
          simp only [optTruthy, Json.truthy] at hd
          intro hnil
          subst hnil
          simp at hd
      · rw [if_neg h2] at he
        cases he
  · intro j ha ht
    simp [extractFragment, ha, anthropicDeltaText, ht]

/-- C10 counterexample: a `data:` line whose parsed payload has
`choices[0].delta.content` equal to the empty string still produces a
fragment — the complete-message content of the same payload — so such a
line does not always produce no fragment. -/
theorem C10_counterexample :
    (parseJson (("data: \x7b\"choices\":[\x7b\"delta\":\x7b\"content\":\"\"\x7d,\"message\":\x7b\"content\":\"x\"\x7d\x7d]\x7d").data.drop 6)).bind
        choicesDeltaContent = some (Json.str [])
    ∧ processStreamLine
        ("data: \x7b\"choices\":[\x7b\"delta\":\x7b\"content\":\"\"\x7d,\"message\":\x7b\"content\":\"x\"\x7d\x7d]\x7d").data =
      some (Json.str "x".data) :=
  ⟨rfl, rfl⟩

/-- C10 witness: on a concrete payload carrying only an empty incremental
delta, the extraction cascade yields nothing. -/
theorem C10_witness :
    extractFragment
      (Json.obj (JsonFields.cons "choices".data
        (Json.arr (JsonItems.cons
          (Json.obj (JsonFields.cons "delta".data
            (Json.obj (JsonFields.cons "content".data (Json.str []) JsonFields.nil))
            JsonFields.nil))
          JsonItems.nil))
        JsonFields.nil)) = none :=
  C10_empty_delta.1 _ rfl rfl rfl

/-- C1 (amended): for every stream line with the `data: ` start that does
not contain the ping marker and whose payload parses as a JSON value, the
loop body yields exactly the fragment given by the claim's precedence
(Anthropic content-delta text, else incremental delta content, else
complete message content, else nothing); in particular the single
content-block-delta line of the claim yields the fragment `Yo`. -/
theorem C1_fragment_precedence :
    (∀ (line : List Char) (v : Json), listStartsWith "data: ".data line = true →
      listContains "event: ping".data line = false →
      parseJson (line.drop 6) = some v →
      processStreamLine line = claimC1Extract v)
    ∧ streamChatResponse
        [strBytes "data: \x7b\"type\":\"content_block_delta\",\"delta\":\x7b\"type\":\"text_delta\",\"text\":\"Yo\"\x7d\x7d\n\n"] =
      [Json.str "Yo".data] := by
  constructor
  · intro line v hs hp hj
    obtain ⟨t, rfl⟩ := (listStartsWith_iff _ _).1 hs
    have hdrop : ("data: ".data ++ t).drop 6 = t := rfl
    rw [hdrop] at hj
    rw [processStreamLine_dataSpace t hp, hj]
    exact extractFragment_eq_claimC1Extract v
  · rfl

/-- C1 counterexample: a `data:` line whose payload parses as a JSON value
carrying the incremental delta content `event: ping` would yield that
content under the claim's precedence, but the code skips the whole line
because of its substring ping check, yielding nothing. -/
theorem C1_counterexample :
    (parseJson (("data: \x7b\"choices\":[\x7b\"delta\":\x7b\"content\":\"event: ping\"\x7d\x7d]\x7d").data.drop 6)).bind
        claimC1Extract = some (Json.str "event: ping".data)
    ∧ processStreamLine
        ("data: \x7b\"choices\":[\x7b\"delta\":\x7b\"content\":\"event: ping\"\x7d\x7d]\x7d").data = none :=
  ⟨rfl, rfl⟩

/-- C1 witness: the amended precedence theorem applied to a concrete
`data:` line with payload an object without any recognised shape. -/
theorem C1_witness :
    processStreamLine "data: \x7b\"a\":null\x7d".data =
      claimC1Extract (Json.obj (JsonFields.cons "a".data Json.null JsonFields.nil)) :=
  C1_fragment_precedence.1 "data: \x7b\"a\":null\x7d".data
    (Json.obj (JsonFields.cons "a".data Json.null JsonFields.nil)) rfl rfl rfl

/-- C2 (amended): the fragment sequence is finite and ends with the byte
stream; a `data: [DONE]` sentinel line is filtered out (yielding nothing)
rather than terminating the sequence by itself; in particular the claim's
two-line stream yields exactly the fragment `Hi` and nothing after it. -/
theorem C2_stream_termination :
    (∀ line : List Char, jsTrim line = "data: [DONE]".data → lineYield line = none)
    ∧ streamChatResponse
        [strBytes "data: \x7b\"choices\":[\x7b\"delta\":\x7b\"content\":\"Hi\"\x7d\x7d]\x7d\n\ndata: [DONE]\n\n"] =
      [Json.str "Hi".data] := by
  constructor
  · intro line h
    simp [lineYield, h, doneSentinel]
  · rfl

/-- C2 counterexample: fragments are still produced from lines arriving
after a `[DONE]` sentinel line has been observed (the sentinel alone
yields nothing but does not terminate the sequence), contradicting
termination upon observing the sentinel. -/
theorem C2_counterexample :
    streamChatResponse
        [strBytes "data: [DONE]\n\ndata: \x7b\"choices\":[\x7b\"delta\":\x7b\"content\":\"X\"\x7d\x7d]\x7d\n\n"] =
      [Json.str "X".data]
    ∧ processChunk "data: [DONE]\n\n".data = [] :=
  ⟨rfl, rfl⟩

/-- C2 witness: the sentinel-filter part of the theorem applied to the
literal sentinel line. -/
theorem C2_witness : lineYield "data: [DONE]".data = none :=
  C2_stream_termination.1 "data: [DONE]".data rfl

/-- C5 (amended): a line not starting with `data:` yields no fragment, as
does any line containing the ping marker; a line with the full `data: `
(colon-space) start and no ping marker has its first six characters
stripped and the remainder parsed as a single JSON value from which the
fragment is extracted; a line starting with `data:` without the following
space is not stripped — the whole line is passed to the JSON parser. -/
theorem C5_line_handling :
    (∀ line : List Char, listStartsWith "data:".data line = false → lineYield line = none)
    ∧ (∀ line : List Char, listContains "event: ping".data line = true → lineYield line = none)
    ∧ (∀ t : List Char, listContains "event: ping".data ("data: ".data ++ t) = false →
        processStreamLine ("data: ".data ++ t) = (parseJson t).bind extractFragment)
    ∧ (∀ t : List Char, listStartsWith "data: ".data ("data:".data ++ t) = false →
        listContains "event: ping".data ("data:".data ++ t) = false →
        processStreamLine ("data:".data ++ t) =
          (parseJson ("data:".data ++ t)).bind extractFragment) :=
  ⟨lineYield_nonData, lineYield_ping, processStreamLine_dataSpace,
   processStreamLine_dataNoSpace⟩

/-- C5 counterexample: a line starting with `data:` but without the
space after the colon is not stripped of its marker, so although its
payload (after the marker) is valid JSON carrying the fragment `Hi`, the
code yields nothing for it. -/
theorem C5_counterexample :
    processStreamLine
        ("data:\x7b\"choices\":[\x7b\"delta\":\x7b\"content\":\"Hi\"\x7d\x7d]\x7d").data = none
    ∧ (parseJson
        (("data:\x7b\"choices\":[\x7b\"delta\":\x7b\"content\":\"Hi\"\x7d\x7d]\x7d").data.drop 5)).bind
        extractFragment = some (Json.str "Hi".data) :=
  ⟨rfl, rfl⟩

/-- C5 witness: the strip-and-parse part of the theorem applied to the
line `data: null`. -/
theorem C5_witness :
    processStreamLine ("data: ".data ++ "null".data) =
      (parseJson "null".data).bind extractFragment :=
  C5_line_handling.2.2.1 "null".data rfl

/-- C6: a `data: ` line whose payload fails to parse as JSON yields no
fragment, and the surrounding lines are processed exactly as if the bad
line were absent; in particular a stream with the line `data: not-json`
followed by a valid line still yields the valid line's fragment `Hi`. -/
theorem C6_invalid_json_skipped :
    (∀ t : List Char, parseJson t = none →
      lineYield ("data: ".data ++ t) = none ∧
      ∀ ls1 ls2 : List (List Char),
        (ls1 ++ ("data: ".data ++ t) :: ls2).filterMap lineYield =
          ls1.filterMap lineYield ++ ls2.filterMap lineYield)
    ∧ streamChatResponse
        [strBytes "data: not-json\n\ndata: \x7b\"choices\":[\x7b\"delta\":\x7b\"content\":\"Hi\"\x7d\x7d]\x7d\n\n"] =
      [Json.str "Hi".data] := by
  constructor
  · intro t hj
    have h0 := lineYield_dataSpace_parseFail t hj
    refine ⟨h0, fun ls1 ls2 => ?_⟩
    have h0c : lineYield ('d' :: 'a' :: 't' :: 'a' :: ':' :: ' ' :: t) = none := h0
    rw [List.filterMap_append]
    simp [List.filterMap_cons, h0c]
  · rfl

/-- C6 witness: the theorem applied to the claim's concrete bad payload
`not-json`, surrounded by two singleton line lists. -/
theorem C6_witness :
    lineYield ("data: ".data ++ "not-json".data) = none
    ∧ (["x".data] ++ ("data: ".data ++ "not-json".data) :: ["y".data]).filterMap lineYield =
        ["x".data].filterMap lineYield ++ ["y".data].filterMap lineYield :=
  ⟨(C6_invalid_json_skipped.1 "not-json".data rfl).1,
   (C6_invalid_json_skipped.1 "not-json".data rfl).2 ["x".data] ["y".data]⟩

/-- C4 (amended): with a configured URL and chatflow id, the flow-engine
adapter fails with the no-user-message error when the request has no
`user`-role message; otherwise the question sent is the content of the
most recent `user`-role message and the history consists of all
non-system messages except every `user`-role message whose content equals
the question, each entry tagged `apiMessage` for `assistant` and
`userMessage` otherwise (an empty history is sent as absent). -/
theorem C4_flowise_payload :
    ∀ (apiUrl chatflowId : List Char) (req : ChatRequest),
      apiUrl.isEmpty = false → chatflowId.isEmpty = false →
      ((req.messages.filter (fun m => m.role = Role.user)).getLast? = none →
          sendFlowiseRequest apiUrl chatflowId req = .error .noUserMessage)
      ∧ (∀ last : Message,
          (req.messages.filter (fun m => m.role = Role.user)).getLast? = some last →
          sendFlowiseRequest apiUrl chatflowId req =
            .ok { chatflowId := chatflowId
                  question := last.content
                  history :=
                    if amendedFlowiseHistory req.messages last.content = [] then none
                    else some (amendedFlowiseHistory req.messages last.content)
                  temperature := req.temperature
                  streaming := req.stream }) := by
  intro apiUrl chatflowId req hu hc
  constructor
  · intro hnone
    unfold sendFlowiseRequest
    rw [hu, hc]
    simp only [Bool.false_eq_true, if_false]
    rw [hnone]
  · intro last hlast
    have hfe : ∀ m ∈ req.messages,
        (!(m.role = Role.system : Bool) &&
          !((m.role = Role.user : Bool) && m.content == last.content)) =
        decide (m.role ≠ Role.system ∧ ¬(m.role = Role.user ∧ m.content = last.content)) := by
      intro m _
      by_cases h1 : m.role = Role.system <;> by_cases h2 : m.role = Role.user <;>
        by_cases h3 : m.content = last.content <;> simp [h1, h2, h3]
    have hhist : (req.messages.filter
        (fun m => !(m.role = Role.system : Bool) &&
          !((m.role = Role.user : Bool) && m.content == last.content))).map
        (fun m =>
          { message := m.content, type := flowiseTag m, role := flowiseTag m
            content := m.content : FlowiseHistoryEntry }) =
        amendedFlowiseHistory req.messages last.content := by
      rw [List.filter_congr hfe]
      rfl
    unfold sendFlowiseRequest
    rw [hu, hc]
    simp only [Bool.false_eq_true, if_false]
    rw [hlast]
    dsimp only []
    rw [hhist]
    cases hamend : amendedFlowiseHistory req.messages last.content with
    | nil => simp
    | cons e es => simp

/-- C4 counterexample: for a request `user a, assistant b, user a`, the
claim's history (all non-system messages before the last user message)
keeps both earlier messages, but the code's history drops every user
message whose content equals the question — including the earlier
`user a` — so the transmitted history differs. -/
theorem C4_counterexample :
    sendFlowiseRequest "u".data "cf".data
      { model := "m".data
        messages := [{ role := Role.user, content := "a".data },
                     { role := Role.assistant, content := "b".data },
                     { role := Role.user, content := "a".data }]
        temperature := 1, stream := false } =
      .ok { chatflowId := "cf".data, question := "a".data
            history := some [{ message := "b".data, type := "apiMessage".data
                               role := "apiMessage".data, content := "b".data }]
            temperature := 1, streaming := false }
    ∧ specFlowiseHistoryC4
        [{ role := Role.user, content := "a".data },
         { role := Role.assistant, content := "b".data },
         { role := Role.user, content := "a".data }] =
      [{ message := "a".data, type := "userMessage".data
         role := "userMessage".data, content := "a".data },
       { message := "b".data, type := "apiMessage".data
         role := "apiMessage".data, content := "b".data }]
    ∧ some [{ message := "b".data, type := "apiMessage".data
              role := "apiMessage".data, content := "b".data : FlowiseHistoryEntry }] ≠
        some [{ message := "a".data, type := "userMessage".data
                role := "userMessage".data, content := "a".data },
              { message := "b".data, type := "apiMessage".data
                role := "apiMessage".data, content := "b".data }] :=
  ⟨rfl, rfl, by decide⟩

/-- C4 witness: the theorem applied to a concrete single-user-message
request with configured URL and chatflow id. -/
theorem C4_witness :
    sendFlowiseRequest "u".data "c".data
      { model := "m".data
        messages := [{ role := Role.user, content := "q".data }]
        temperature := 1, stream := false } =
      .ok { chatflowId := "c".data, question := "q".data, history := none
            temperature := 1, streaming := false } :=
  (C4_flowise_payload "u".data "c".data
    { model := "m".data
      messages := [{ role := Role.user, content := "q".data }]
      temperature := 1, stream := false } rfl rfl).2
    { role := Role.user, content := "q".data } rfl

/-- C8: the streaming text decoder used by `streamChatResponse` carries
partial multi-byte sequences across reads: for every UTF-8 encoding of a
valid scalar sequence split anywhere into two chunks, decoding the chunks
successively with the carried state reproduces the scalar sequence, ends
in the clean state, and equals decoding the whole byte sequence at
once — no code point is truncated at a chunk boundary. -/
theorem C8_utf8_split_invariance :
    ∀ cps bs1 bs2 : List Nat, (∀ c ∈ cps, validScalar c) →
      bs1 ++ bs2 = utf8Encode cps →
      (utf8DecodeChunk (0, 0) bs1).1 ++
          (utf8DecodeChunk (utf8DecodeChunk (0, 0) bs1).2 bs2).1 = cps
      ∧ (utf8DecodeChunk (utf8DecodeChunk (0, 0) bs1).2 bs2).2 = (0, 0)
      ∧ (utf8DecodeChunk (0, 0) bs1).1 ++
            (utf8DecodeChunk (utf8DecodeChunk (0, 0) bs1).2 bs2).1 =
          (utf8DecodeChunk (0, 0) (bs1 ++ bs2)).1 := by
  intro cps bs1 bs2 hv he
  have happ := utf8DecodeChunk_append (0, 0) bs1 bs2
  have hwhole : utf8DecodeChunk (0, 0) (bs1 ++ bs2) = (cps, 0, 0) := by
    rw [he]
    exact utf8_decode_encode cps hv
  rw [happ] at hwhole
  have h1 := congrArg Prod.fst hwhole
  have h2 := congrArg Prod.snd hwhole
  simp only [] at h1 h2
  refine ⟨h1, h2, ?_⟩
  rw [happ, h1]

/-- C8 witness: the two-byte encoding of the code point 233 (the letter
e-acute) split between two reads decodes to exactly that single code
point, with the carried state consumed. -/
theorem C8_witness :
    (utf8DecodeChunk (0, 0) [195]).1 ++
        (utf8DecodeChunk (utf8DecodeChunk (0, 0) [195]).2 [169]).1 = [233]
    ∧ (utf8DecodeChunk (utf8DecodeChunk (0, 0) [195]).2 [169]).2 = (0, 0)
    ∧ (utf8DecodeChunk (0, 0) [195]).1 ++
          (utf8DecodeChunk (utf8DecodeChunk (0, 0) [195]).2 [169]).1 =
        (utf8DecodeChunk (0, 0) ([195] ++ [169])).1 :=
  C8_utf8_split_invariance [233] [195] [169] (by decide) (by decide)
